import Mathlib

/-!
# Verification of the static-blog build pipeline

A shallow embedding of the build script (the PlantUML-enabled variant) of the
`learningneverends` repository, together with proofs about the article
ordering comparator, the navigation resolver, filename order-key extraction,
title humanization, front-matter defaults, the PlantUML code renderer, the
relative-path computation for navigation links, and the index updater.

Conventions:
* JS strings are Lean `String`s; JS numbers used as order keys are `Nat`
  (the decimal value of the digit run, exact for all realistic inputs);
  dates are compared in the source via `new Date(x) - new Date(y)`, i.e.
  by their millisecond timestamps, which we carry directly as an `Int`
  field `date`.
* `Array.prototype.sort` is required by ECMAScript to be stable; we model
  it as the canonical stable merge sort (`List.mergeSort`).  When the
  comparator is not a consistent comparison function ECMAScript leaves the
  resulting order implementation-defined; the merge-sort model is then one
  canonical choice of a stable implementation.
* Fallible steps (the PlantUML encoder, which may throw) are modelled with
  `Option`.
-/

namespace Build

/-- The fields of a scanned article that the sorting / navigation passes of
`buildArticles` use (the object pushed in the first pass, minus the fields
that never influence ordering or navigation). `date` is the millisecond
timestamp `new Date(article.date).getTime()` of the article's date. -/
structure Article where
  title : String
  slug : String
  folder : String
  baseName : String
  date : Int
  order : Nat
  deriving DecidableEq, Repr

/-- The comparator passed to `articles.sort` in `buildArticles`:

```js
if (a.folder === 'docker-beginner' && b.folder !== 'docker-beginner') return -1;
if (a.folder !== 'docker-beginner' && b.folder === 'docker-beginner') return 1;
if (a.folder === b.folder) {
    if (a.order !== b.order) { return a.order - b.order; }
    return new Date(b.date) - new Date(a.date);
}
return new Date(b.date) - new Date(a.date);
```
-/
def articleCompare (a b : Article) : Int :=
  if a.folder = "docker-beginner" ∧ b.folder ≠ "docker-beginner" then -1
  else if a.folder ≠ "docker-beginner" ∧ b.folder = "docker-beginner" then 1
  else if a.folder = b.folder then
    if a.order ≠ b.order then (a.order : Int) - (b.order : Int)
    else b.date - a.date
  else b.date - a.date

/-- The boolean "not after" relation induced by the comparator: a stable sort
places `a` at or before `b` exactly when the comparator is `≤ 0`. -/
def articleLE (a b : Article) : Bool :=
  decide (articleCompare a b ≤ 0)

/-- `articles.sort(comparator)` from `buildArticles`, modelled as a stable
merge sort by the comparator's induced relation. -/
def sortArticles (l : List Article) : List Article :=
  l.mergeSort articleLE

/-- Decimal value of a digit run (`parseInt(match[1], 10)`, exact). -/
def digitsVal (ds : List Char) : Nat :=
  ds.foldl (fun n c => n * 10 + (c.toNat - '0'.toNat)) 0

/-- `extractOrder` from the source: match the regex `^(\d+)-` against the
filename; on a match return `parseInt(match[1], 10)`, otherwise the sentinel
`999999` ("Put non-numbered articles at the end").  The regex matches
exactly when the filename opens with a non-empty digit run followed
immediately by a hyphen, and the captured group is that digit run. -/
def extractOrder (filename : String) : Nat :=
  match filename.data.takeWhile (fun c => c.isDigit),
      filename.data.dropWhile (fun c => c.isDigit) with
  | ds@(_ :: _), '-' :: _ => digitsVal ds
  | _, _ => 999999

/-- Whether a filename matches the `^\d+-` pattern (at least one leading
ASCII digit followed by a hyphen), stated independently of `extractOrder`. -/
def matchesOrderPattern (filename : String) : Bool :=
  match filename.data with
  | c :: _ => c.isDigit && ((filename.data.dropWhile (fun d => d.isDigit)).head? == some '-')
  | [] => false

/-- `articles.filter(a => a.folder === 'docker-beginner')` from the
navigation pass of `buildArticles`. -/
def dockerSub (articles : List Article) : List Article :=
  articles.filter (fun a => a.folder == "docker-beginner")

/-- The prev/next navigation computed for the article at position `i` of the
sorted list in the second pass of `buildArticles`:

* articles in the `docker-beginner` folder look themselves up (by slug) in
  the filtered folder sublist and take prev/next there, except that the last
  one falls through to the successor of the article's global index;
* every other article takes its immediate global neighbours.

JS `findIndex` returns `-1` when no element matches, while `List.findIdx`
returns the length; inside the `docker-beginner` branch the predicate is
satisfied by the article itself (its own slug matches and it survives the
filter), so the element is always found and the two agree on every input
reaching that branch.  For `i` out of range (never produced by the loop)
the model returns `(none, none)`. -/
def navigationFor (articles : List Article) (i : Nat) : Option Article × Option Article :=
  match articles[i]? with
  | none => (none, none)
  | some article =>
    if article.folder = "docker-beginner" then
      let dockerArticles := dockerSub articles
      let dockerIndex := dockerArticles.findIdx (fun a => a.slug == article.slug)
      let prev := if 0 < dockerIndex then dockerArticles[dockerIndex - 1]? else none
      let next :=
        if dockerIndex < dockerArticles.length - 1 then dockerArticles[dockerIndex + 1]?
        else
          let globalIndex := articles.findIdx (fun a => a.slug == article.slug)
          if globalIndex < articles.length - 1 then articles[globalIndex + 1]? else none
      (prev, next)
    else
      (if 0 < i then articles[i - 1]? else none,
       if i < articles.length - 1 then articles[i + 1]? else none)

/-- `split(sep)` on a single-character separator (same semantics as JS
`String.prototype.split` and Lean's `String.splitOn` for one-character
separators, but structurally recursive so that it evaluates in the
kernel). -/
def splitCharAux (sep : Char) (cur : List Char) : List Char → List (List Char)
  | [] => [cur.reverse]
  | c :: rest =>
    if c = sep then cur.reverse :: splitCharAux sep [] rest
    else splitCharAux sep (c :: cur) rest

/-- `s.split(sep)` for a single-character separator. -/
def splitChar (sep : Char) (s : String) : List String :=
  (splitCharAux sep [] s.data).map String.mk

/-- Whitespace trim (as in `String.prototype.trim`). -/
def trimAscii (s : String) : String :=
  String.mk (((s.data.dropWhile Char.isWhitespace).reverse.dropWhile Char.isWhitespace).reverse)

/-- `getRelativeArticlePath(targetSlug, currentFolder)` from the source,
word for word: four cases keyed on whether the target slug has a folder part
and whether the current article sits in a folder. -/
def getRelativeArticlePath (targetSlug currentFolder : String) : String :=
  let targetParts := splitChar '/' targetSlug
  let currentParts := if currentFolder = "" then [] else splitChar '/' currentFolder
  if 1 < targetParts.length ∧ currentParts ≠ [] ∧ targetParts.head? = currentParts.head? then
    (targetParts.getLast?.getD "") ++ ".html"
  else if 1 < targetParts.length ∧ currentParts = [] then
    targetSlug ++ ".html"
  else if targetParts.length = 1 ∧ currentParts ≠ [] then
    "../" ++ targetSlug ++ ".html"
  else
    targetSlug ++ ".html"

/-- Strip leading `../` segments of a relative URL, counting them. -/
def splitUps : List Char → Nat × List Char
  | '.' :: '.' :: '/' :: rest =>
    let (n, r) := splitUps rest
    (n + 1, r)
  | s => (0, s)

/-- Standard relative-URL resolution against a directory given as a segment
list: each leading `../` removes one trailing directory segment, and the
remainder is appended.  Used to state what a relative link actually points
at from an article's output directory. -/
def resolveRel (dir : List String) (rel : String) : String :=
  let (ups, rest) := splitUps rel.data
  String.intercalate "/" (dir.take (dir.length - ups) ++ [String.mk rest])

/-- Leftmost occurrence of `pat` in `s`, as an index. -/
def findSub (pat : List Char) : List Char → Option Nat
  | [] => if pat.isEmpty then some 0 else none
  | c :: rest =>
    if pat.isPrefixOf (c :: rest) then some 0
    else (findSub pat rest).map (· + 1)

/-- The pure content transformation of `updateIndex`:

```js
indexContent.replace(/const articles = \x5b[\s\S]*?\x5d;/,
                     `const articles = [dollar]{articlesJson};`)
```

The regex matches, lazily, from the leftmost occurrence of the literal
`const articles = [` up to the first following `];`.  `String.replace` with
no match returns the receiver unchanged. -/
def updateIndexContent (indexContent articlesJson : String) : String :=
  let s := indexContent.data
  let pat := "const articles = [".data
  match findSub pat s with
  | none => indexContent
  | some i =>
    let tail0 := (s.drop i).drop pat.length
    match findSub "];".data tail0 with
    | none => indexContent
    | some j =>
      String.mk (s.take i ++ ("const articles = " ++ articlesJson ++ ";").data ++ tail0.drop (j + 2))

/-- Whether the index HTML contains a match of the marker regex. -/
def hasMarker (indexContent : String) : Bool :=
  let s := indexContent.data
  let pat := "const articles = [".data
  match findSub pat s with
  | none => false
  | some i => (findSub "];".data ((s.drop i).drop pat.length)).isSome

/-- The `<div class="plantuml-diagram">…</div>` fragment emitted by the
custom `renderer.code` on a successful encode, with the given image URL. -/
def plantumlDiagramDiv (diagramUrl : String) : String :=
  "<div class=\"plantuml-diagram\">\n                <img src=\"" ++ diagramUrl ++
    "\" alt=\"PlantUML Diagram\" style=\"max-width: 100%; height: auto; border: 1px solid var(--border); border-radius: 8px; margin: 1rem 0;\" />\n            </div>"

/-- The overridden `renderer.code(code, language)`.  The third-party
`plantumlEncoder.encode` may throw, which we model by an arbitrary
`encode : String → Option String` parameter (`none` = throws); the
default code renderer `originalCode` is likewise a parameter. -/
def rendererCode (encode : String → Option String)
    (originalCode : String → String → String) (code language : String) : String :=
  if language = "plantuml" ∨ language = "puml" then
    match encode code with
    | some encoded => plantumlDiagramDiv ("http://www.plantuml.com/plantuml/svg/" ++ encoded)
    | none => originalCode code language
  else
    originalCode code language

/-- The optional metadata fields recognized by the front-matter parser. -/
structure FrontMatter where
  title : Option String := none
  date : Option String := none
  excerpt : Option String := none
  tags : Option (List String) := none
  deriving DecidableEq, Repr

/-- "No metadata": every field absent. -/
def FrontMatter.empty : FrontMatter := {}

/-- Strip one level of surrounding double quotes from a metadata value. -/
def unquote (s : String) : String :=
  if 2 ≤ s.data.length ∧ s.data.head? = some '"' ∧ s.data.getLast? = some '"' then
    String.mk (s.data.dropLast.drop 1)
  else s

/-- Record one metadata line into the field mapping: blank lines are
skipped, a line without a `:` separator is malformed (`none`), known keys
are stored, unknown keys are ignored. -/
def parseFieldLine (fm : FrontMatter) (line : String) : Option FrontMatter :=
  if trimAscii line = "" then some fm
  else
    match splitChar ':' line with
    | [] => none
    | [_] => none
    | key :: rest =>
      let v := unquote (trimAscii (String.intercalate ":" rest))
      match trimAscii key with
      | "title" => some { fm with title := some v }
      | "date" => some { fm with date := some v }
      | "excerpt" => some { fm with excerpt := some v }
      | "tags" => some { fm with tags := some ((splitChar ',' v).map trimAscii) }
      | _ => some fm

/-- Fold `parseFieldLine` over the lines of a metadata block. -/
def parseFieldsAux : FrontMatter → List String → Option FrontMatter
  | fm, [] => some fm
  | fm, l :: ls =>
    match parseFieldLine fm l with
    | none => none
    | some fm' => parseFieldsAux fm' ls

/-- Modelled from the spec: the front-matter split performed by the
third-party `matter` (gray-matter) dependency, whose source is not part of
this repository.  Per §4.2: "Splits a leading delimited metadata block from
the remaining body text.  Produces a key/value mapping for known optional
fields (title, date, excerpt, tags) … Parsing is pure and total — malformed
metadata blocks degrade to 'no metadata' (entire file treated as body)
rather than erroring."  A block is delimited by a leading `---` line and the
next `---` line; a non-blank block line without a `:` makes the block
malformed. -/
def matterSplit (text : String) : FrontMatter × String :=
  match splitChar '\n' text with
  | "---" :: rest =>
    match rest.findIdx? (· == "---") with
    | none => (FrontMatter.empty, text)
    | some k =>
      match parseFieldsAux FrontMatter.empty (rest.take k) with
      | none => (FrontMatter.empty, text)
      | some fm => (fm, String.intercalate "\n" (rest.drop (k + 1)))
  | _ => (FrontMatter.empty, text)

/-- A non-blank metadata line with no `:` separator. -/
def badFieldLine (line : String) : Bool :=
  trimAscii line != "" && (splitChar ':' line).length == 1

/-- The input text opens a front-matter block that is malformed: either the
closing `---` line is missing, or some line of the block has no `:`
separator.  Stated independently of `matterSplit`. -/
def malformedLeadingBlock (text : String) : Bool :=
  match splitChar '\n' text with
  | "---" :: rest =>
    match rest.findIdx? (· == "---") with
    | none => true
    | some k => (rest.take k).any badFieldLine
  | _ => false

/-- Drop the extension from a path basename, following `path.parse`: the
extension starts at the last `.`, except that a `.` in the first position
(dotfile) does not start an extension. -/
def dropLastExt (s : List Char) : List Char :=
  let r := s.reverse
  let ext := r.takeWhile (fun c => c ≠ '.')
  if ext.length = r.length then s
  else if ext.length + 1 = r.length then s
  else (r.drop (ext.length + 1)).reverse

/-- `path.parse(filename).dir`: everything before the last `/`, or `""`. -/
def pathDir (filename : String) : String :=
  let r := filename.data.reverse
  let base := r.takeWhile (fun c => c ≠ '/')
  if base.length = r.length then "" else String.mk ((r.drop (base.length + 1)).reverse)

/-- `path.parse(filename).name`: the basename without its extension. -/
def pathName (filename : String) : String :=
  let r := filename.data.reverse
  let base := (r.takeWhile (fun c => c ≠ '/')).reverse
  String.mk (dropLastExt base)

/-- `baseName.replace(regex ^\d+- , '')`: remove one leading digit run
followed by a hyphen, if present. -/
def stripOrderDigits (s : List Char) : List Char :=
  let ds := s.takeWhile (fun c => c.isDigit)
  match ds, s.drop ds.length with
  | _ :: _, '-' :: rest => rest
  | _, _ => s

/-- The humanized filename fallback for a missing title: strip the leading
`^\d+-` match, then replace every hyphen with a space (the source's two
chained `replace` calls). -/
def humanize (baseName : String) : String :=
  String.mk ((stripOrderDigits baseName.data).map (fun c => if c = '-' then ' ' else c))

/-- JS `v || fallback` for string-valued metadata: `undefined` (`none`) and
the empty string are falsy. -/
def jsOrStr (v : Option String) (fallback : String) : String :=
  match v with
  | some s => if s = "" then fallback else s
  | none => fallback

/-- The excerpt fallback:
`markdown.substring(0, 150).replace(/[#*_]/g, '') + '...'`. -/
def defaultExcerpt (markdown : String) : String :=
  String.mk ((markdown.data.take 150).filter (fun c => c != '#' && c != '*' && c != '_')) ++ "..."

/-- The record built by `parseArticle` (with `date` still the raw string
field, as in the source). -/
structure ParsedArticle where
  filename : String
  slug : String
  folder : String
  baseName : String
  title : String
  date : String
  excerpt : String
  content : String
  tags : List String
  order : Nat
  deriving DecidableEq, Repr

/-- The object literal returned by `parseArticle`, given the front-matter
`data`, body `markdown`, and the current date string `today`
(`new Date().toISOString().split('T')[0]`). -/
def articleOfData (filename : String) (data : FrontMatter) (markdown : String)
    (today : String) : ParsedArticle :=
  let folder := pathDir filename
  let baseName := pathName filename
  { filename := filename
    slug := if folder = "" then baseName else folder ++ "/" ++ baseName
    folder := folder
    baseName := baseName
    title := jsOrStr data.title (humanize baseName)
    date := jsOrStr data.date today
    excerpt := jsOrStr data.excerpt (defaultExcerpt markdown)
    content := markdown
    tags := data.tags.getD []
    order := extractOrder baseName }

/-- `parseArticle` on file contents already read from disk: split the
front matter, then build the article record. -/
def parseArticleFields (filename content today : String) : ParsedArticle :=
  let (data, markdown) := matterSplit content
  articleOfData filename data markdown today

/-! ## Theorems -/

/-- **C1**: the global sort comparator orders any two parsed articles by, in
priority: (1) an article in the hardcoded folder `docker-beginner` comes
before any article in a different folder (in both directions of the
comparator); (2) within identical folders, ascending numeric order key;
(3) within identical folders with equal order keys, descending date;
(4) across differing folders neither of which is `docker-beginner`,
descending date. -/
theorem c1_global_sort_comparator (a b : Article) :
    (a.folder = "docker-beginner" → b.folder ≠ "docker-beginner" → articleCompare a b < 0) ∧
    (b.folder = "docker-beginner" → a.folder ≠ "docker-beginner" → 0 < articleCompare a b) ∧
    (a.folder = b.folder → a.order < b.order → articleCompare a b < 0) ∧
    (a.folder = b.folder → a.order = b.order → b.date < a.date → articleCompare a b < 0) ∧
    (a.folder ≠ b.folder → a.folder ≠ "docker-beginner" → b.folder ≠ "docker-beginner" →
      b.date < a.date → articleCompare a b < 0) := by
  unfold articleCompare
  refine ⟨fun h1 h2 => ?_, fun h1 h2 => ?_, fun h1 h2 => ?_, fun h1 h2 h3 => ?_,
    fun h1 h2 h3 h4 => ?_⟩
  · rw [if_pos ⟨h1, h2⟩]; norm_num
  · rw [if_neg (fun hx => hx.2 h1), if_pos ⟨h2, h1⟩]; norm_num
  · rw [if_neg (fun hx => hx.2 (h1 ▸ hx.1)), if_neg (fun hx => hx.1 (h1 ▸ hx.2)),
      if_pos h1, if_pos (Nat.ne_of_lt h2)]
    omega
  · rw [if_neg (fun hx => hx.2 (h1 ▸ hx.1)), if_neg (fun hx => hx.1 (h1 ▸ hx.2)),
      if_pos h1, if_neg (fun hx => hx h2)]
    omega
  · rw [if_neg (fun hx => h2 hx.1), if_neg (fun hx => h3 hx.2), if_neg h1]
    omega

/-- Witness for C1 at concrete articles: a `docker-beginner` article is
ordered before a `kubernetes` article. -/
theorem c1_global_sort_comparator_witness :
    articleCompare ⟨"t", "docker-beginner/01-a", "docker-beginner", "01-a", 0, 1⟩
      ⟨"u", "kubernetes/01-b", "kubernetes", "01-b", 7, 1⟩ < 0 :=
  (c1_global_sort_comparator _ _).1 rfl (by decide)

/-- A filename that does not match `^\d+-` gets the sentinel order key. -/
theorem extractOrder_of_no_match (s : String) (h : matchesOrderPattern s = false) :
    extractOrder s = 999999 := by
  unfold matchesOrderPattern at h
  unfold extractOrder
  cases hl : s.data with
  | nil => simp
  | cons c cs =>
    rw [hl] at h
    by_cases hc : c.isDigit
    · simp only [hc, Bool.true_and] at h
      simp only [List.takeWhile_cons, List.dropWhile_cons, hc, if_true] at h ⊢
      cases hd : (cs.dropWhile fun c => c.isDigit) with
      | nil => rfl
      | cons d ds =>
        rw [hd] at h
        simp only [List.head?_cons, beq_eq_false_iff_ne, ne_eq, Option.some.injEq] at h
        split
        · rename_i heq
          exact absurd (List.cons.injEq .. ▸ heq).1 h
        · rfl
    · have hc' : c.isDigit = false := by simpa using hc
      simp [List.takeWhile_cons, hc']

/-- **C5 (amended)**: a filename lacking a `^\d+-` numeric prefix gets the
maximum sentinel order key `999999`, and such a file sorts after every
numbered file in the same folder *whose numeric prefix value is below the
sentinel* (the comparator puts the numbered article strictly first). -/
theorem c5_sentinel_orders_after_numbered :
    (∀ s : String, matchesOrderPattern s = false → extractOrder s = 999999) ∧
    (∀ a b : Article, a.folder = b.folder →
      matchesOrderPattern a.baseName = false → a.order = extractOrder a.baseName →
      matchesOrderPattern b.baseName = true → b.order = extractOrder b.baseName →
      b.order < 999999 →
      articleCompare b a < 0 ∧ 0 < articleCompare a b) := by
  refine ⟨extractOrder_of_no_match, fun a b h1 h2 h3 _ _ h6 => ?_⟩
  have ha : a.order = 999999 := h3.trans (extractOrder_of_no_match _ h2)
  have hne : b.order ≠ a.order := by omega
  constructor
  · unfold articleCompare
    rw [if_neg (fun hx => hx.2 (h1 ▸ hx.1)), if_neg (fun hx => hx.1 (h1 ▸ hx.2)),
      if_pos h1.symm, if_pos hne]
    omega
  · unfold articleCompare
    rw [if_neg (fun hx => hx.2 (h1.symm ▸ hx.1)), if_neg (fun hx => hx.1 (h1.symm ▸ hx.2)),
      if_pos h1, if_pos (Ne.symm hne)]
    omega

/-- Counterexample to **C5** as stated: `1000000-big.md` is a numbered file
(its name matches `^\d+-`), yet the unnumbered `notes.md` in the same folder
sorts *before* it — the comparator puts the numbered article after the
unnumbered one, and the stable sort keeps the unnumbered one first — because
its parsed prefix `1000000` exceeds the sentinel `999999`. -/
theorem c5_counterexample :
    matchesOrderPattern "notes" = false ∧
    matchesOrderPattern "1000000-big" = true ∧
    extractOrder "1000000-big" = 1000000 ∧
    0 < articleCompare
        ⟨"", "f/1000000-big", "f", "1000000-big", 0, extractOrder "1000000-big"⟩
        ⟨"", "f/notes", "f", "notes", 0, extractOrder "notes"⟩ ∧
    sortArticles
        [⟨"", "f/notes", "f", "notes", 0, extractOrder "notes"⟩,
         ⟨"", "f/1000000-big", "f", "1000000-big", 0, extractOrder "1000000-big"⟩] =
      [⟨"", "f/notes", "f", "notes", 0, extractOrder "notes"⟩,
       ⟨"", "f/1000000-big", "f", "1000000-big", 0, extractOrder "1000000-big"⟩] := by
  refine ⟨by decide, by decide, by decide, by decide, ?_⟩
  simp +decide [sortArticles, List.mergeSort, List.merge, articleLE, articleCompare,
    extractOrder, digitsVal]

/-- Witness for C5 (amended) at concrete articles `2-a.md` and `notes.md`. -/
theorem c5_sentinel_orders_after_numbered_witness :
    articleCompare ⟨"", "f/2-a", "f", "2-a", 0, extractOrder "2-a"⟩
        ⟨"", "f/notes", "f", "notes", 5, extractOrder "notes"⟩ < 0 ∧
    0 < articleCompare ⟨"", "f/notes", "f", "notes", 5, extractOrder "notes"⟩
        ⟨"", "f/2-a", "f", "2-a", 0, extractOrder "2-a"⟩ :=
  c5_sentinel_orders_after_numbered.2
    ⟨"", "f/notes", "f", "notes", 5, extractOrder "notes"⟩
    ⟨"", "f/2-a", "f", "2-a", 0, extractOrder "2-a"⟩
    rfl (by decide) rfl (by decide) rfl (by decide)

/-- **C6**: when the front matter lacks a title field, the parsed title
defaults to the humanized base filename — the leading numeric prefix is
stripped and hyphens become spaces — so `01-intro.md` gets the title
`intro`. -/
theorem c6_title_fallback (filename : String) (data : FrontMatter)
    (markdown today : String) (h : data.title = none) :
    (articleOfData filename data markdown today).title = humanize (pathName filename) ∧
    (articleOfData "01-intro.md" data markdown today).title = "intro" := by
  constructor
  · simp [articleOfData, jsOrStr, h]
  · simp only [articleOfData, jsOrStr, h]
    decide

/-- Witness for C6: a concrete headerless `01-intro.md` parse. -/
theorem c6_title_fallback_witness :
    (articleOfData "01-intro.md" FrontMatter.empty "body text" "2026-02-14").title = "intro" :=
  (c6_title_fallback "01-intro.md" FrontMatter.empty "body text" "2026-02-14" rfl).2

/-- **C8**: for a fenced block tagged `plantuml` or `puml`, a throwing
encode step (modelled by `encode` returning `none`) makes the renderer fall
back to the default code renderer instead of propagating; the rendering
function is total by construction (never throws); and a successful encode
emits the diagram `<div>`/`<img>` fragment whose URL is the PlantUML server
base followed by the encoding of the exact diagram text — the same text
yields the same URL regardless of which of the two tags was used. -/
theorem c8_renderer_code (encode : String → Option String)
    (originalCode : String → String → String) (code language : String)
    (h : language = "plantuml" ∨ language = "puml") :
    (encode code = none →
      rendererCode encode originalCode code language = originalCode code language) ∧
    (∀ encoded, encode code = some encoded →
      rendererCode encode originalCode code language =
        plantumlDiagramDiv ("http://www.plantuml.com/plantuml/svg/" ++ encoded) ∧
      List.IsInfix ("http://www.plantuml.com/plantuml/svg/" ++ encoded).data
        (rendererCode encode originalCode code language).data ∧
      rendererCode encode originalCode code "plantuml" =
        rendererCode encode originalCode code "puml") := by
  constructor
  · intro he
    unfold rendererCode
    rw [if_pos h, he]
  · intro encoded he
    refine ⟨?_, ?_, ?_⟩
    · unfold rendererCode
      rw [if_pos h, he]
    · unfold rendererCode
      rw [if_pos h, he]
      refine ⟨"<div class=\"plantuml-diagram\">\n                <img src=\"".data,
        ("\" alt=\"PlantUML Diagram\" style=\"max-width: 100%; height: auto; border: 1px solid var(--border); border-radius: 8px; margin: 1rem 0;\" />\n            </div>").data, ?_⟩
      simp [plantumlDiagramDiv]
    · unfold rendererCode
      rw [if_pos (Or.inl rfl), if_pos (Or.inr rfl), he]

/-- Witness for C8 at a concrete diagram block and encoder. -/
theorem c8_renderer_code_witness :
    rendererCode (fun _ => some "SoWkIImgAStDuN98pKi1IW80") (fun c l => c ++ l)
        "@startuml\nA->B\n@enduml" "plantuml" =
      plantumlDiagramDiv
        ("http://www.plantuml.com/plantuml/svg/" ++ "SoWkIImgAStDuN98pKi1IW80") :=
  ((c8_renderer_code (fun _ => some "SoWkIImgAStDuN98pKi1IW80") (fun c l => c ++ l)
    "@startuml\nA->B\n@enduml" "plantuml" (Or.inl rfl)).2
    "SoWkIImgAStDuN98pKi1IW80" rfl).1

/-- **C3 (amended)**: when the index HTML contains no match of the marker
regex, `updateIndex` does *not* fail: `String.replace` with no match
returns its input unchanged, so the unmodified content is written back and
the build continues (there is no fallback insertion either). -/
theorem c3_no_marker_leaves_content_unchanged (s json : String)
    (h : hasMarker s = false) :
    updateIndexContent s json = s := by
  simp only [hasMarker] at h
  simp only [updateIndexContent]
  split
  · rfl
  · rename_i i h1
    rw [h1] at h
    simp only at h
    split
    · rfl
    · rename_i j h2
      rw [h2] at h
      simp at h

/-- Counterexample to **C3** as stated: on an index page without the marker
statement the update operation *succeeds* — it is a total function of the
content and returns it unchanged — instead of aborting the build with an
error. -/
theorem c3_counterexample :
    hasMarker "<html><body>no article list here</body></html>" = false ∧
    updateIndexContent "<html><body>no article list here</body></html>" "[]" =
      "<html><body>no article list here</body></html>" := by
  constructor
  · decide
  · exact c3_no_marker_leaves_content_unchanged _ "[]" (by decide)

/-- Witness for C3 (amended) at a different concrete markerless page. -/
theorem c3_no_marker_leaves_content_unchanged_witness :
    updateIndexContent "<p>plain page</p>" "[1]" = "<p>plain page</p>" :=
  c3_no_marker_leaves_content_unchanged "<p>plain page</p>" "[1]" (by decide)

/-- **C9** fails on the code: for a navigation link between two *different*
single-level subfolders, `getRelativeArticlePath` falls through to its
default case and returns `target.html` without the needed `../`, so the
link resolves (relative to the current article's output directory
`docker-beginner/`) to `docker-beginner/kubernetes/….html` instead of the
target's actual output file `kubernetes/….html`.  The theorem evaluates the
code at the failing input. -/
theorem c9_cross_folder_link_misresolves :
    getRelativeArticlePath "kubernetes/01-introduction-to-kubernetes" "docker-beginner" =
      "kubernetes/01-introduction-to-kubernetes.html" ∧
    resolveRel ["docker-beginner"]
        (getRelativeArticlePath "kubernetes/01-introduction-to-kubernetes" "docker-beginner") =
      "docker-beginner/kubernetes/01-introduction-to-kubernetes.html" ∧
    resolveRel ["docker-beginner"]
        (getRelativeArticlePath "kubernetes/01-introduction-to-kubernetes" "docker-beginner") ≠
      "kubernetes/01-introduction-to-kubernetes.html" := by
  refine ⟨by decide, by decide, by decide⟩

/-- A malformed (colon-free, non-blank) metadata line makes the field fold
reject the block. -/
theorem parseFieldLine_of_bad (fm : FrontMatter) (line : String)
    (h : badFieldLine line = true) : parseFieldLine fm line = none := by
  unfold badFieldLine at h
  unfold parseFieldLine
  simp only [Bool.and_eq_true, bne_iff_ne, ne_eq, beq_iff_eq] at h
  obtain ⟨h1, h2⟩ := h
  rw [if_neg h1]
  cases hs : splitChar ':' line with
  | nil => rw [hs] at h2
  | cons a t =>
    cases t with
    | nil => rfl
    | cons b u => rw [hs] at h2; simp at h2

/-- Any malformed line in the block makes the whole field fold fail. -/
theorem parseFieldsAux_eq_none (lines : List String)
    (h : lines.any badFieldLine = true) :
    ∀ fm, parseFieldsAux fm lines = none := by
  induction lines with
  | nil => simp at h
  | cons l ls ih =>
    intro fm
    simp only [List.any_cons, Bool.or_eq_true] at h
    unfold parseFieldsAux
    rcases h with hb | hls
    · rw [parseFieldLine_of_bad fm l hb]
    · cases hpl : parseFieldLine fm l with
      | none => rfl
      | some fm' => exact ih hls fm'

/-- **C7**: front-matter parsing is pure and total (the model is a total
function by construction), and a malformed leading metadata block degrades
to "no metadata": the split yields the empty field mapping with the entire
file as body, and every metadata field of the parsed article takes its
documented default (humanized filename title, current date, truncated
markup-stripped excerpt, empty tag list). -/
theorem c7_malformed_front_matter_degrades (text : String)
    (h : malformedLeadingBlock text = true) :
    matterSplit text = (FrontMatter.empty, text) ∧
    ∀ filename today,
      (parseArticleFields filename text today).title = humanize (pathName filename) ∧
      (parseArticleFields filename text today).date = today ∧
      (parseArticleFields filename text today).excerpt = defaultExcerpt text ∧
      (parseArticleFields filename text today).tags = [] ∧
      (parseArticleFields filename text today).content = text := by
  have hms : matterSplit text = (FrontMatter.empty, text) := by
    cases hsp : splitChar '\n' text with
    | nil =>
      simp only [malformedLeadingBlock, hsp] at h
      exact (Bool.false_ne_true h).elim
    | cons hd rest =>
      by_cases hhd : hd = "---"
      · subst hhd
        simp only [malformedLeadingBlock, hsp] at h
        simp only [matterSplit, hsp]
        cases hidx : rest.findIdx? (fun l => l == "---") with
        | none => rfl
        | some k =>
          rw [hidx] at h
          have h' : (rest.take k).any badFieldLine = true := by simpa using h
          have hz := parseFieldsAux_eq_none _ h' FrontMatter.empty
          simp only [hz]
      · simp only [malformedLeadingBlock, hsp] at h
        split at h
        · rename_i heq
          exact absurd (List.cons.injEq .. ▸ heq).1 hhd
        · exact (Bool.false_ne_true h).elim
  refine ⟨hms, fun filename today => ?_⟩
  simp [parseArticleFields, hms, articleOfData, jsOrStr, FrontMatter.empty]

/-- Witness for C7 at a concrete file whose metadata block has a colon-free
line. -/
theorem c7_malformed_front_matter_degrades_witness :
    matterSplit "---\ntitle Broken\n---\nBody" =
      (FrontMatter.empty, "---\ntitle Broken\n---\nBody") ∧
    (parseArticleFields "k8s/01-pods.md" "---\ntitle Broken\n---\nBody" "2026-02-17").title =
      humanize (pathName "k8s/01-pods.md") :=
  ⟨(c7_malformed_front_matter_degrades _ (by decide)).1,
   ((c7_malformed_front_matter_degrades _ (by decide)).2 "k8s/01-pods.md" "2026-02-17").1⟩

/-- In a list whose slugs are pairwise distinct, looking an element up by
its own slug finds exactly its position. -/
theorem findIdx_slug_of_nodup :
    ∀ (xs : List Article) (j : Nat) (a : Article), (xs.map Article.slug).Nodup →
      xs[j]? = some a → xs.findIdx (fun b => b.slug == a.slug) = j := by
  intro xs
  induction xs with
  | nil => intro j a _ hj; simp at hj
  | cons x t ih =>
    intro j a hnd hj
    cases j with
    | zero =>
      have hx : x = a := by simpa using hj
      subst hx
      simp [List.findIdx_cons]
    | succ j =>
      have hj' : t[j]? = some a := by simpa using hj
      have hmem : a ∈ t := by
        obtain ⟨h, he⟩ := List.getElem?_eq_some_iff.mp hj'
        exact he ▸ List.getElem_mem h
      have hne : x.slug ≠ a.slug := by
        have hx : x.slug ∉ t.map Article.slug := (List.nodup_cons.mp hnd).1
        intro hcontra
        exact hx (hcontra ▸ List.mem_map_of_mem Article.slug hmem)
      have hpx : (x.slug == a.slug) = false := by simpa using hne
      rw [List.findIdx_cons, hpx]
      simp only [cond_false]
      rw [ih j a (List.nodup_cons.mp hnd).2 hj']

/-- **C2**: with pairwise-distinct slugs, (i) every non-`docker-beginner`
article at a non-boundary global position `i` gets `prev`/`next` equal to
the global neighbours at `i-1`/`i+1`; (ii) every `docker-beginner` article
at a non-boundary position `j` of the folder's own sublist gets
`prev`/`next` equal to the sublist neighbours at `j-1`/`j+1`; (iii) the
last `docker-beginner` article's `next` is the element following it in the
global list; (iv) the first `docker-beginner` article's `prev` is null. -/
theorem c2_navigation (l : List Article) (hnd : (l.map Article.slug).Nodup) :
    (∀ i a, l[i]? = some a → a.folder ≠ "docker-beginner" → 0 < i → i + 1 < l.length →
      navigationFor l i = (l[i - 1]?, l[i + 1]?)) ∧
    (∀ i j a, l[i]? = some a → a.folder = "docker-beginner" →
      (dockerSub l)[j]? = some a → 0 < j → j + 1 < (dockerSub l).length →
      navigationFor l i = ((dockerSub l)[j - 1]?, (dockerSub l)[j + 1]?)) ∧
    (∀ i j a, l[i]? = some a → a.folder = "docker-beginner" →
      (dockerSub l)[j]? = some a → j + 1 = (dockerSub l).length →
      (navigationFor l i).2 = l[i + 1]?) ∧
    (∀ i a, l[i]? = some a → a.folder = "docker-beginner" →
      (dockerSub l)[0]? = some a → (navigationFor l i).1 = none) := by
  have hndd : ((dockerSub l).map Article.slug).Nodup :=
    hnd.sublist ((List.filter_sublist l).map Article.slug)
  refine ⟨?_, ?_, ?_, ?_⟩
  · intro i a hi hf h0 h1
    simp only [navigationFor, hi]
    rw [if_neg hf, if_pos h0, if_pos (by omega : i < l.length - 1)]
  · intro i j a hi hf hj h0 h1
    have hidxd : (dockerSub l).findIdx (fun b => b.slug == a.slug) = j :=
      findIdx_slug_of_nodup _ _ _ hndd hj
    simp only [navigationFor, hi]
    rw [if_pos hf]
    simp only [hidxd]
    rw [if_pos h0, if_pos (by omega : j < (dockerSub l).length - 1)]
  · intro i j a hi hf hj hlen
    have hidxd : (dockerSub l).findIdx (fun b => b.slug == a.slug) = j :=
      findIdx_slug_of_nodup _ _ _ hndd hj
    have hgi : l.findIdx (fun b => b.slug == a.slug) = i :=
      findIdx_slug_of_nodup _ _ _ hnd hi
    simp only [navigationFor, hi]
    rw [if_pos hf]
    simp only [hidxd, hgi]
    rw [if_neg (by omega : ¬ j < (dockerSub l).length - 1)]
    by_cases hi2 : i < l.length - 1
    · rw [if_pos hi2]
    · rw [if_neg hi2]
      have hilen : i < l.length := (List.getElem?_eq_some_iff.mp hi).1
      rw [List.getElem?_eq_none (by omega)]
  · intro i a hi hf hj0
    have hidxd : (dockerSub l).findIdx (fun b => b.slug == a.slug) = 0 :=
      findIdx_slug_of_nodup _ _ _ hndd hj0
    simp only [navigationFor, hi]
    rw [if_pos hf]
    simp only [hidxd]
    rw [if_neg (by omega : ¬ (0 : Nat) < 0)]

/-- Witness for C2 at a concrete four-article list: the middle
`docker-beginner` article's navigation is its folder-sublist neighbours. -/
theorem c2_navigation_witness :
    navigationFor
        [⟨"t0", "docker-beginner/01-a", "docker-beginner", "01-a", 0, 1⟩,
         ⟨"t1", "docker-beginner/02-b", "docker-beginner", "02-b", 0, 2⟩,
         ⟨"t2", "docker-beginner/03-c", "docker-beginner", "03-c", 0, 3⟩,
         ⟨"t3", "01-what", "", "01-what", 0, 1⟩] 1 =
      (some ⟨"t0", "docker-beginner/01-a", "docker-beginner", "01-a", 0, 1⟩,
       some ⟨"t2", "docker-beginner/03-c", "docker-beginner", "03-c", 0, 3⟩) :=
  ((c2_navigation _ (by decide)).2.1 1 1
      ⟨"t1", "docker-beginner/02-b", "docker-beginner", "02-b", 0, 2⟩
      (by decide) rfl (by decide) (by decide) (by decide)).trans (by decide)

/-- The comparator's same-folder branch, as a standalone comparator: by
order key ascending, then date descending. -/
def sfCompare (a b : Article) : Int :=
  if a.order ≠ b.order then (a.order : Int) - (b.order : Int) else b.date - a.date

/-- The induced boolean relation of `sfCompare`. -/
def sfLE (a b : Article) : Bool :=
  decide (sfCompare a b ≤ 0)

theorem sfLE_iff (a b : Article) :
    sfLE a b = true ↔ (a.order < b.order ∨ (a.order = b.order ∧ b.date ≤ a.date)) := by
  unfold sfLE sfCompare
  rw [decide_eq_true_iff]
  by_cases h : a.order = b.order
  · rw [if_neg (fun hx => hx h)]
    omega
  · rw [if_pos h]
    omega

theorem sfLE_trans (a b c : Article) (h1 : sfLE a b) (h2 : sfLE b c) : sfLE a c := by
  rw [sfLE_iff] at h1 h2 ⊢
  omega

theorem sfLE_total (a b : Article) : sfLE a b || sfLE b a := by
  rw [Bool.or_eq_true, sfLE_iff, sfLE_iff]
  omega

/-- On articles of one folder the global comparator's relation is the
same-folder relation. -/
theorem articleLE_eq_sfLE (a b : Article) (h : a.folder = b.folder) :
    articleLE a b = sfLE a b := by
  unfold articleLE sfLE articleCompare sfCompare
  rw [if_neg (fun hx => hx.2 (h.symm.trans hx.1)), if_neg (fun hx => hx.1 (h.trans hx.2)),
    if_pos h]

/-- On a single-folder list, sorting by the global relation is sorting by
the same-folder relation. -/
theorem mergeSort_articleLE_eq_sf (l : List Article) (f : String)
    (hf : ∀ a ∈ l, a.folder = f) :
    l.mergeSort articleLE = l.mergeSort sfLE := by
  have h := List.map_mergeSort (r := articleLE) (s := sfLE) (f := id) (l := l)
    (fun a ha b hb => articleLE_eq_sfLE a b ((hf a ha).trans (hf b hb).symm))
  simpa using h

/-- **C4 (amended)**: on article lists drawn from a single folder — where
the comparator is a consistent (transitive and total) comparison — the sort
is stable (articles that compare equal keep their scan order: every tied
scan-ordered pair survives as a sublist) and idempotent.  On multi-folder
lists the comparator is not transitive and both properties can fail (see
the counterexample). -/
theorem c4_single_folder_stable_idempotent (l : List Article) (f : String)
    (hf : ∀ a ∈ l, a.folder = f) :
    sortArticles (sortArticles l) = sortArticles l ∧
    (∀ a b, List.Sublist [a, b] l → articleCompare a b = 0 →
      List.Sublist [a, b] (sortArticles l)) := by
  have hcongr : l.mergeSort articleLE = l.mergeSort sfLE := mergeSort_articleLE_eq_sf l f hf
  constructor
  · show (l.mergeSort articleLE).mergeSort articleLE = l.mergeSort articleLE
    rw [hcongr]
    have hf' : ∀ a ∈ l.mergeSort sfLE, a.folder = f :=
      fun a ha => hf a (List.mem_mergeSort.mp ha)
    rw [mergeSort_articleLE_eq_sf _ f hf']
    exact List.mergeSort_of_sorted (List.sorted_mergeSort sfLE_trans sfLE_total l)
  · intro a b hab hcmp
    show List.Sublist [a, b] (l.mergeSort articleLE)
    rw [hcongr]
    have ha : a ∈ l := hab.subset (by simp)
    have hb : b ∈ l := hab.subset (by simp)
    have hle : sfLE a b = true := by
      rw [← articleLE_eq_sfLE a b ((hf a ha).trans (hf b hb).symm)]
      unfold articleLE
      rw [hcmp]
      rfl
    exact List.pair_sublist_mergeSort sfLE_trans sfLE_total hle hab

/-- Counterexample to **C4** as stated, on multi-folder lists (where the
comparator is not transitive).  Stability: `p` and `c` compare equal
(different folders, same date) and `p` precedes `c` in scan order, yet the
sort emits `c` before `p`.  Idempotence: sorting a three-article list twice
changes it again. -/
theorem c4_counterexample :
    (articleCompare ⟨"", "p", "y", "", 0, 1⟩ ⟨"", "c", "x", "", 0, 1⟩ = 0 ∧
      sortArticles
          [⟨"", "p", "y", "", 0, 1⟩, ⟨"", "a", "x", "", 1, 2⟩, ⟨"", "c", "x", "", 0, 1⟩] =
        [⟨"", "c", "x", "", 0, 1⟩, ⟨"", "a", "x", "", 1, 2⟩, ⟨"", "p", "y", "", 0, 1⟩]) ∧
    sortArticles (sortArticles
        [⟨"", "a", "x", "", 1, 2⟩, ⟨"", "b", "y", "", 1, 1⟩, ⟨"", "c", "x", "", 0, 1⟩]) ≠
      sortArticles
        [⟨"", "a", "x", "", 1, 2⟩, ⟨"", "b", "y", "", 1, 1⟩, ⟨"", "c", "x", "", 0, 1⟩] := by
  refine ⟨⟨by decide, ?_⟩, ?_⟩ <;>
    simp +decide [sortArticles, List.mergeSort, List.merge, articleLE, articleCompare]

/-- Witness for C4 (amended) on a concrete single-folder list. -/
theorem c4_single_folder_stable_idempotent_witness :
    sortArticles (sortArticles
        [⟨"", "s2", "x", "", 0, 2⟩, ⟨"", "s1", "x", "", 0, 1⟩]) =
      sortArticles [⟨"", "s2", "x", "", 0, 2⟩, ⟨"", "s1", "x", "", 0, 1⟩] :=
  (c4_single_folder_stable_idempotent _ "x"
    (by intro a ha; simp at ha; rcases ha with rfl | rfl <;> rfl)).1

/-- "Docker articles first": no article of another folder is followed by a
`docker-beginner` article. -/
def Sep (l : List Article) : Prop :=
  l.Pairwise (fun a b => a.folder ≠ "docker-beginner" → b.folder ≠ "docker-beginner")

theorem articleLE_docker_nondocker (a b : Article) (ha : a.folder = "docker-beginner")
    (hb : b.folder ≠ "docker-beginner") : articleLE a b = true := by
  unfold articleLE articleCompare
  rw [if_pos ⟨ha, hb⟩]
  rfl

theorem articleLE_nondocker_docker (a b : Article) (ha : a.folder ≠ "docker-beginner")
    (hb : b.folder = "docker-beginner") : articleLE a b = false := by
  unfold articleLE articleCompare
  rw [if_neg (fun hx => ha hx.1), if_pos ⟨ha, hb⟩]
  rfl

theorem nondocker_of_articleLE (x y : Article) (h : articleLE x y = true)
    (hx : x.folder ≠ "docker-beginner") : y.folder ≠ "docker-beginner" := by
  intro hy
  rw [articleLE_nondocker_docker x y hx hy] at h
  exact Bool.false_ne_true h

theorem nondocker_of_not_articleLE (x y : Article) (h : articleLE x y = false)
    (hy : y.folder ≠ "docker-beginner") : x.folder ≠ "docker-beginner" := by
  intro hx
  rw [articleLE_docker_nondocker x y hx hy] at h
  exact Bool.false_ne_true h.symm

theorem sep_merge : ∀ xs ys : List Article, Sep xs → Sep ys →
    Sep (List.merge xs ys articleLE) := by
  intro xs
  induction xs with
  | nil => intro ys _ hy; simpa [List.merge] using hy
  | cons x xs ih =>
    intro ys hx hy
    induction ys with
    | nil => simpa [List.merge] using hx
    | cons y ys ihy =>
      rw [List.cons_merge_cons]
      by_cases hle : articleLE x y = true
      · rw [if_pos hle]
        apply List.Pairwise.cons
        · intro z hz hxnd
          rcases List.mem_merge.mp hz with hz | hz
          · exact (List.pairwise_cons.mp hx).1 z hz hxnd
          · have hynd : y.folder ≠ "docker-beginner" := nondocker_of_articleLE x y hle hxnd
            rcases List.mem_cons.mp hz with rfl | hz
            · exact hynd
            · exact (List.pairwise_cons.mp hy).1 z hz hynd
        · exact ih (y :: ys) hx.of_cons hy
      · have hle' : articleLE x y = false := Bool.not_eq_true _ ▸ eq_false_of_ne_true hle
        rw [if_neg hle]
        apply List.Pairwise.cons
        · intro z hz hynd
          rcases List.mem_merge.mp hz with hz | hz
          · have hxnd : x.folder ≠ "docker-beginner" :=
              nondocker_of_not_articleLE x y hle' hynd
            rcases List.mem_cons.mp hz with rfl | hz
            · exact hxnd
            · exact (List.pairwise_cons.mp hx).1 z hz hxnd
          · exact (List.pairwise_cons.mp hy).1 z hz hynd
        · exact ihy hy.of_cons

/-- The merge-sort of any article list puts every `docker-beginner` article
before every article of another folder. -/
theorem sep_mergeSort : ∀ l : List Article, Sep (l.mergeSort articleLE)
  | [] => by simp [List.mergeSort, Sep]
  | [a] => by simp [List.mergeSort, Sep]
  | a :: b :: xs => by
    have h1 : (List.splitInTwo ⟨a :: b :: xs, rfl⟩).1.1.length < xs.length + 1 + 1 := by
      simp [List.splitInTwo_fst]; omega
    have h2 : (List.splitInTwo ⟨a :: b :: xs, rfl⟩).2.1.length < xs.length + 1 + 1 := by
      simp [List.splitInTwo_snd]; omega
    rw [List.mergeSort]
    exact sep_merge _ _ (sep_mergeSort _) (sep_mergeSort _)
termination_by l => l.length

/-- A separated list is its docker part followed by its non-docker part. -/
theorem sep_filter_append (l : List Article) (h : Sep l) :
    l = l.filter (fun a => a.folder == "docker-beginner") ++
        l.filter (fun a => !(a.folder == "docker-beginner")) := by
  induction l with
  | nil => rfl
  | cons x t ih =>
    by_cases hx : x.folder = "docker-beginner"
    · have hxb : (x.folder == "docker-beginner") = true := beq_iff_eq.mpr hx
      simp only [List.filter_cons, hxb, Bool.not_true, if_true, Bool.false_eq_true, if_false]
      rw [List.cons_append]
      exact congrArg (x :: ·) (ih h.of_cons)
    · have hall : ∀ z ∈ t, ¬ z.folder = "docker-beginner" :=
        fun z hz => (List.pairwise_cons.mp h).1 z hz hx
      have hxb : (x.folder == "docker-beginner") = false := beq_eq_false_iff_ne.mpr hx
      simp only [List.filter_cons, hxb, Bool.not_false, Bool.false_eq_true, if_false, if_true]
      have h1 : t.filter (fun a => a.folder == "docker-beginner") = [] :=
        List.filter_eq_nil_iff.mpr (fun z hz => by simpa using hall z hz)
      have h2 : t.filter (fun a => !(a.folder == "docker-beginner")) = t :=
        List.filter_eq_self.mpr (fun z hz => by simpa using hall z hz)
      rw [h1, h2, List.nil_append]


/-- On a separated list with distinct slugs, the folder-local navigation of
a `docker-beginner` article that is not the folder's last coincides with the
global-sequence neighbours. -/
theorem nav_prefix_of_sep (s : List Article) (hsep : Sep s)
    (hnd : (s.map Article.slug).Nodup) (i : Nat)
    (hi : i + 1 < (dockerSub s).length) :
    navigationFor s i = ((if 0 < i then s[i - 1]? else none), s[i + 1]?) := by
  have hndd : ((dockerSub s).map Article.slug).Nodup :=
    hnd.sublist ((List.filter_sublist s).map Article.slug)
  have hdecomp := sep_filter_append s hsep
  have hs2 : ∀ j, j < (dockerSub s).length → s[j]? = (dockerSub s)[j]? := by
    intro j hj
    conv_lhs => rw [hdecomp]
    exact List.getElem?_append_left hj
  have hid : i < (dockerSub s).length := by omega
  obtain ⟨a, hdi⟩ : ∃ a, (dockerSub s)[i]? = some a := ⟨_, List.getElem?_eq_getElem hid⟩
  have hsi : s[i]? = some a := (hs2 i hid).trans hdi
  have hmem : a ∈ dockerSub s := by
    obtain ⟨hlt, he⟩ := List.getElem?_eq_some_iff.mp hdi
    exact he ▸ List.getElem_mem hlt
  have haf : a.folder = "docker-beginner" := by
    simp only [dockerSub] at hmem
    exact beq_iff_eq.mp (List.mem_filter.mp hmem).2
  have hidx : (dockerSub s).findIdx (fun b => b.slug == a.slug) = i :=
    findIdx_slug_of_nodup _ _ _ hndd hdi
  simp only [navigationFor, hsi]
  rw [if_pos haf]
  simp only [hidx]
  rw [if_pos (by omega : i < (dockerSub s).length - 1)]
  rw [← hs2 (i - 1) (by omega), ← hs2 (i + 1) hi]

/-- **C10**: in the sorted list, the `docker-beginner` articles form a
contiguous prefix — the list equals its `docker-beginner` part (in order)
followed by its other articles — and, with pairwise-distinct slugs, each
`docker-beginner` article other than the folder's last gets exactly the
global-sequence neighbours from the folder-local prev/next computation. -/
theorem c10_docker_prefix_and_local_nav (l : List Article)
    (hnd : (l.map Article.slug).Nodup) :
    sortArticles l =
      (sortArticles l).filter (fun a => a.folder == "docker-beginner") ++
        (sortArticles l).filter (fun a => !(a.folder == "docker-beginner")) ∧
    ∀ i, i + 1 < (dockerSub (sortArticles l)).length →
      navigationFor (sortArticles l) i =
        ((if 0 < i then (sortArticles l)[i - 1]? else none), (sortArticles l)[i + 1]?) := by
  have hsep : Sep (sortArticles l) := sep_mergeSort l
  have hperm : List.Perm (sortArticles l) l := List.mergeSort_perm l articleLE
  have hnd' : ((sortArticles l).map Article.slug).Nodup :=
    ((hperm.map Article.slug).nodup_iff).mpr hnd
  exact ⟨sep_filter_append _ hsep, fun i hi => nav_prefix_of_sep _ hsep hnd' i hi⟩

/-- Witness for C10: a concrete scrambled list; after sorting, the first
`docker-beginner` article's folder-local navigation equals the global one. -/
theorem c10_docker_prefix_and_local_nav_witness :
    navigationFor (sortArticles
        [⟨"tn", "kubernetes/01-k", "kubernetes", "01-k", 5, 1⟩,
         ⟨"t1", "docker-beginner/02-b", "docker-beginner", "02-b", 0, 2⟩,
         ⟨"t0", "docker-beginner/01-a", "docker-beginner", "01-a", 0, 1⟩]) 0 =
      (none, some ⟨"t1", "docker-beginner/02-b", "docker-beginner", "02-b", 0, 2⟩) :=
  ((c10_docker_prefix_and_local_nav _ (by decide)).2 0
      (by simp +decide [sortArticles, List.mergeSort, List.merge, articleLE,
        articleCompare, dockerSub])).trans
    (by simp +decide [sortArticles, List.mergeSort, List.merge, articleLE, articleCompare])

end Build
